import Mathlib

/-!
Verification of the CodeChrono VS Code extension core
(Mukul-raii/Miss-Minutes_extension).

Shallow embedding of the three core components, translated from the
TypeScript source:

* the activity debounce engine (`Tracker.handleActivity`, src/sync/tracker.ts),
* the sync engine (`Tracker.syncLoop` / `Tracker.stopTracking`, src/sync/tracker.ts),
* the git revision correlator (`GitTracker`, src/utils/gitTracker.ts).

Times are modelled as `Int` (JavaScript `Date.now()` millisecond values);
the durable record store (src/storage/database.ts, declared via its
interface only) is modelled from the spec's Record Store contract.
-/

/-! ## Data model: ActivityLog (src/storage/database.ts interface) -/

/-- `ActivityLog` record as produced by `handleActivity` and stored by the
Record Store.  `id` is assigned by the store on insertion and is `none`
while the record is only in memory. -/
structure ActivityLog where
  projectPath : String
  filePath : String
  language : String
  timestamp : Int
  duration : Int
  editor : String
  commitHash : Option String
  id : Option Nat
deriving Repr, DecidableEq

/-! ## Debounce engine (Tracker, src/sync/tracker.ts) -/

/-- `debounceInterval = 2000` ms (tracker.ts line 19). -/
def debounceInterval : Int := 2000

/-- `maxIdleTime = 5 * 60 * 1000` ms (tracker.ts line 20). -/
def maxIdleTime : Int := 5 * 60 * 1000

/-- `syncInterval = 60000` ms (tracker.ts line 21). -/
def syncInterval : Int := 60000

/-- The mutable fields of `Tracker` that `handleActivity` reads and writes:
`lastActivityTime` (0 = never) and the in-memory pending batch `queue`. -/
structure TrackerState where
  lastActivityTime : Int
  queue : List ActivityLog
deriving Repr, DecidableEq

/-- Initial tracker state: `lastActivityTime = 0`, empty queue
(tracker.ts lines 16-18). -/
def initTracker : TrackerState := { lastActivityTime := 0, queue := [] }

/-- The active editor context as `handleActivity` reads it from the host:
`vscode.window.activeTextEditor` with its document's file name, language id
and enclosing workspace folder. -/
structure EditorInfo where
  fileName : String
  languageId : String
  workspaceFolder : Option String
deriving Repr, DecidableEq

/-- One raw editor event as seen by `handleActivity`: the clock value
`Date.now()` at delivery, the active editor (possibly absent), and the
correlator's answer `gitTracker?.getActiveCommit(projectPath)` at that
moment (the tracker reads it synchronously while building the record). -/
structure RawEvent where
  now : Int
  activeEditor : Option EditorInfo
  activeCommit : Option String
deriving Repr, DecidableEq

/-- `Tracker.handleActivity` (tracker.ts lines 96-138), as a pure state
transition.  Returns the new state and the emitted record (`none` when the
event is discarded by the debounce gate or no active editor exists).
Emission appends the record to the in-memory queue. -/
def handleActivity (st : TrackerState) (ev : RawEvent) :
    TrackerState × Option ActivityLog :=
  let now := ev.now
  let timeDiff := now - st.lastActivityTime
  if timeDiff < debounceInterval then
    (st, none)
  else
    let duration : Int :=
      if st.lastActivityTime ≠ 0 ∧ timeDiff < maxIdleTime then timeDiff else 0
    let st1 : TrackerState := { st with lastActivityTime := now }
    match ev.activeEditor with
    | none => (st1, none)
    | some editor =>
      let log : ActivityLog :=
        { projectPath := editor.workspaceFolder.getD ""
          filePath := editor.fileName
          language := editor.languageId
          timestamp := now
          duration := duration
          editor := "vscode"
          commitHash := ev.activeCommit
          id := none }
      ({ st1 with queue := st1.queue ++ [log] }, some log)

/-- Run `handleActivity` over a sequence of raw events, collecting the
emitted records in order. -/
def runEvents (st : TrackerState) : List RawEvent → TrackerState × List ActivityLog
  | [] => (st, [])
  | ev :: rest =>
    let out := handleActivity st ev
    let res := runEvents out.1 rest
    (res.1, out.2.toList ++ res.2)

/-- A raw event at time `t` with an active editor present. -/
def evAt (t : Int) : RawEvent :=
  { now := t
    activeEditor := some { fileName := "/p/a.ts", languageId := "typescript",
                           workspaceFolder := some "/p" }
    activeCommit := none }

/-- The record built by `handleActivity` when an event is accepted and an
editor is active (tracker.ts lines 117-134). -/
def emittedLog (st : TrackerState) (ev : RawEvent) (ed : EditorInfo) : ActivityLog :=
  { projectPath := ed.workspaceFolder.getD ""
    filePath := ed.fileName
    language := ed.languageId
    timestamp := ev.now
    duration :=
      if st.lastActivityTime ≠ 0 ∧ ev.now - st.lastActivityTime < maxIdleTime
      then ev.now - st.lastActivityTime else 0
    editor := "vscode"
    commitHash := ev.activeCommit
    id := none }

/-! ## Data model: GitCommit (src/storage/database.ts interface) -/

/-- `GitCommit` record as produced by `GitTracker` and stored by the
Record Store. -/
structure GitCommit where
  projectPath : String
  commitHash : String
  message : String
  author : String
  authorEmail : String
  timestamp : Int
  filesChanged : Int
  linesAdded : Int
  linesDeleted : Int
  branch : Option String
  id : Option Nat
deriving Repr, DecidableEq

/-! ## Durable record store -/

/-- Modelled from the spec: the Durable Record Store.  Its implementation
(src/storage/database.ts) is not among the sources; only its interface is
visible from the callers.  Per the spec's Record Store contract, `insert*`
appends the record and assigns the next store-local id, `unsynced*` queries
return up to `limit` stored records (oldest first), and `delete*` removes
records by id. -/
structure DbState where
  logs : List ActivityLog
  commits : List GitCommit
  nextLogId : Nat
  nextCommitId : Nat
deriving Repr, DecidableEq

/-- The empty store. -/
def emptyDb : DbState := { logs := [], commits := [], nextLogId := 0, nextCommitId := 0 }

/-- Modelled from the spec: `insertActivity(record) → id`. -/
def DbState.insertActivity (db : DbState) (l : ActivityLog) : DbState :=
  { db with logs := db.logs ++ [{ l with id := some db.nextLogId }]
            nextLogId := db.nextLogId + 1 }

/-- Modelled from the spec: `insertCommit(record) → id`. -/
def DbState.insertCommit (db : DbState) (c : GitCommit) : DbState :=
  { db with commits := db.commits ++ [{ c with id := some db.nextCommitId }]
            nextCommitId := db.nextCommitId + 1 }

/-- Modelled from the spec: `getUnsyncedLogs(limit)` returns the oldest
unsynced activity records, up to `limit`. -/
def DbState.getUnsyncedLogs (db : DbState) (limit : Nat) : List ActivityLog :=
  db.logs.take limit

/-- Modelled from the spec: `getUnsyncedCommits(limit)`. -/
def DbState.getUnsyncedCommits (db : DbState) (limit : Nat) : List GitCommit :=
  db.commits.take limit

/-- Modelled from the spec: `deleteLogs(ids)` removes activity records whose
assigned id is in `ids`. -/
def DbState.deleteLogs (db : DbState) (ids : List Nat) : DbState :=
  { db with logs := db.logs.filter (fun l =>
      match l.id with
      | some i => !(ids.contains i)
      | none => true) }

/-- Modelled from the spec: `deleteCommits(ids)`. -/
def DbState.deleteCommits (db : DbState) (ids : List Nat) : DbState :=
  { db with commits := db.commits.filter (fun c =>
      match c.id with
      | some i => !(ids.contains i)
      | none => true) }

/-! ## Sync engine (Tracker.syncLoop, src/sync/tracker.ts lines 140-190) -/

/-- The flush step of `syncLoop` (tracker.ts lines 143-154): copy the pending
queue, replace it with an empty one, and insert each copied record into the
store.  `insertOk` models whether `db.insertActivity` succeeds or throws for
a given record; a throw is caught, logged and the record dropped. -/
def flushStep (st : TrackerState) (db : DbState) (insertOk : ActivityLog → Bool) :
    TrackerState × DbState :=
  if st.queue.length > 0 then
    ({ st with queue := [] },
     st.queue.foldl (fun d l => if insertOk l then d.insertActivity l else d) db)
  else (st, db)

/-- `logs.map(l => l.id!).filter(id => id !== undefined)`
(tracker.ts line 164). -/
def logIds (logs : List ActivityLog) : List Nat := logs.filterMap (·.id)

/-- `commits.map(c => c.id!).filter(id => id !== undefined)`
(tracker.ts lines 178-180). -/
def commitIds (cs : List GitCommit) : List Nat := cs.filterMap (·.id)

/-- The "sync activity logs" step (tracker.ts lines 159-170).  `submit`
models `apiClient.syncActivities`: `.ok b` is a promise resolved with `b`,
`.error e` a rejected promise (network error). -/
def syncActivitiesStep (db : DbState)
    (submit : List ActivityLog → Except String Bool) : Except String DbState :=
  if (db.getUnsyncedLogs 50).length > 0 then
    match submit (db.getUnsyncedLogs 50) with
    | .ok true => .ok (db.deleteLogs (logIds (db.getUnsyncedLogs 50)))
    | .ok false => .ok db
    | .error e => .error e
  else .ok db

/-- The "sync git commits" step (tracker.ts lines 173-184). -/
def syncCommitsStep (db : DbState)
    (submit : List GitCommit → Except String Bool) : Except String DbState :=
  if (db.getUnsyncedCommits 20).length > 0 then
    match submit (db.getUnsyncedCommits 20) with
    | .ok true => .ok (db.deleteCommits (commitIds (db.getUnsyncedCommits 20)))
    | .ok false => .ok db
    | .error e => .error e
  else .ok db

/-- The whole "Sync DB to API" section (tracker.ts lines 156-187): both
steps run inside one try/catch, so a rejection anywhere aborts the remaining
steps (they are caught and logged) but keeps the store mutations already
performed before the throw. -/
def syncDbToApi (db : DbState)
    (sa : List ActivityLog → Except String Bool)
    (sc : List GitCommit → Except String Bool) : DbState :=
  match syncActivitiesStep db sa with
  | .error _ => db
  | .ok db1 =>
    match syncCommitsStep db1 sc with
    | .error _ => db1
    | .ok db2 => db2

/-! ## Tracking / timer cancellation (tracker.ts lines 36-82, 140-190) -/

/-- The tracking and timer state relevant to cancellation: whether tracking
is enabled (`isTracking`) and whether a sync timer is currently scheduled
(`syncTimer` holding a pending timeout). -/
structure SyncState where
  isTracking : Bool
  timerScheduled : Bool
deriving Repr, DecidableEq

/-- `Tracker.stopTracking` (tracker.ts lines 68-82) restricted to this
state: when tracking, clear the flag and cancel the outstanding timer via
`clearTimeout`; otherwise return immediately. -/
def stopTracking (s : SyncState) : SyncState :=
  if !s.isTracking then s
  else { isTracking := false, timerScheduled := false }

/-- One invocation of `syncLoop` (tracker.ts lines 140-190) at the
timer-and-cancellation level of abstraction.  The firing timer is consumed;
the guard `if (!this.isTracking) return` runs at entry; `stopMidFlight`
says whether `stopTracking` is called at one of the body's `await`
suspension points; line 189 then assigns a new timer unconditionally. -/
def syncLoopRun (s : SyncState) (stopMidFlight : Bool) : SyncState :=
  let s1 : SyncState := { s with timerScheduled := false }
  if !s1.isTracking then s1
  else
    let s2 := if stopMidFlight then stopTracking s1 else s1
    { s2 with timerScheduled := true }

/-! ## Revision correlator (GitTracker, src/utils/gitTracker.ts) -/

/-- The external version-control inspector as `GitTracker` invokes it: one
field per `execAsync` command shape, each returning the process stdout
(`.ok`) or a spawn/non-zero-exit failure (`.error`).  The two-argument
fields take `(projectPath, commitHash)`. -/
structure GitCli where
  revParseHead : String → Except String String
  branchShowCurrent : String → Except String String
  logSubject : String → String → Except String String
  logAuthorName : String → String → Except String String
  logAuthorEmail : String → String → Except String String
  logAuthorTimestamp : String → String → Except String String
  showStat : String → String → Except String String

/-- Decimal value of a digit run. -/
def decimalValue (ds : List Char) : Nat :=
  ds.foldl (fun a c => a * 10 + (c.toNat - 48)) 0

/-- JavaScript `parseInt(s, 10)` on an already-trimmed string: optional
sign, then the leading digit run.  `NaN` (no digits) is approximated as 0;
no claim depends on the numeric value. -/
def jsParseInt (s : String) : Int :=
  match s.toList with
  | '-' :: rest =>
    let ds := rest.takeWhile Char.isDigit
    if ds.isEmpty then 0 else -(decimalValue ds : Int)
  | '+' :: rest =>
    let ds := rest.takeWhile Char.isDigit
    if ds.isEmpty then 0 else (decimalValue ds : Int)
  | l =>
    let ds := l.takeWhile Char.isDigit
    if ds.isEmpty then 0 else (decimalValue ds : Int)

/-- `(diffStats.match(/\n/g) || []).length` (gitTracker.ts line 82). -/
def countNewlines (s : String) : Int :=
  ((s.toList.filter (fun c => c = '\n')).length : Int)

/-- Leftmost occurrence of a digit run immediately followed by `pat`;
returns the run's value and the remainder after `pat`.  Models one
capture-group step of the regex `(\d+) insertion.*?(\d+) deletion`
(gitTracker.ts line 86). -/
def scanNum (pat : List Char) : List Char → Option (Nat × List Char)
  | [] => none
  | c :: rest =>
    if c.isDigit then
      let ds := (c :: rest).takeWhile Char.isDigit
      let after := (c :: rest).dropWhile Char.isDigit
      if pat.isPrefixOf after then some (decimalValue ds, after.drop pat.length)
      else scanNum pat rest
    else scanNum pat rest

/-- `diffStats.match(/(\d+) insertion.*?(\d+) deletion/)` (gitTracker.ts
lines 86-90): the two captured counts, or `none` when the pattern does not
match (then both counts stay 0). -/
def parseStats (s : String) : Option (Nat × Nat) :=
  match scanNum (" insertion".toList) s.toList with
  | none => none
  | some r =>
    match scanNum (" deletion".toList) r.2 with
    | none => none
    | some r2 => some (r.1, r2.1)

/-- Model of the JavaScript `stdout.trim()`: strip leading and trailing
whitespace (written over the character list so that it evaluates in the
kernel). -/
def jsTrim (s : String) : String :=
  String.mk
    (((s.toList.dropWhile Char.isWhitespace).reverse.dropWhile
        Char.isWhitespace).reverse)

/-- `GitTracker.getCurrentCommit` (gitTracker.ts lines 19-31): `git
rev-parse HEAD`, trimmed; any failure is caught and becomes `null`. -/
def getCurrentCommit (cli : GitCli) (projectPath : String) : Option String :=
  match cli.revParseHead projectPath with
  | .ok stdout => some (jsTrim stdout)
  | .error _ => none

/-- `GitTracker.getCurrentBranch` (gitTracker.ts lines 36-45). -/
def getCurrentBranch (cli : GitCli) (projectPath : String) : Option String :=
  match cli.branchShowCurrent projectPath with
  | .ok stdout => some (jsTrim stdout)
  | .error _ => none

/-- The `Partial<GitCommit>` result of `getCommitDetails`. -/
structure CommitDetails where
  message : String
  author : String
  authorEmail : String
  timestamp : Int
  filesChanged : Int
  linesAdded : Int
  linesDeleted : Int
deriving Repr, DecidableEq

/-- `GitTracker.getCommitDetails` (gitTracker.ts lines 50-105): four
concurrent `git log` sub-queries via `Promise.all` (any rejection rejects
the whole fetch, caught into `null`), then `git show --stat` for the diff
summary. -/
def getCommitDetails (cli : GitCli) (projectPath commitHash : String) :
    Option CommitDetails :=
  match cli.logSubject projectPath commitHash,
        cli.logAuthorName projectPath commitHash,
        cli.logAuthorEmail projectPath commitHash,
        cli.logAuthorTimestamp projectPath commitHash with
  | .ok m, .ok a, .ok e, .ok t =>
    match cli.showStat projectPath commitHash with
    | .error _ => none
    | .ok diffStats =>
      let counts := (parseStats diffStats).getD (0, 0)
      some { message := jsTrim m
             author := jsTrim a
             authorEmail := jsTrim e
             timestamp := jsParseInt (jsTrim t) * 1000
             filesChanged := countNewlines diffStats
             linesAdded := (counts.1 : Int)
             linesDeleted := (counts.2 : Int) }
  | _, _, _, _ => none

/-- The process-local maps of `GitTracker` (gitTracker.ts lines 11-12):
`currentCommit : projectPath → commitHash` and
`commitStartTime : commitHash → startTime`, as association lists. -/
structure GitState where
  currentCommit : List (String × String)
  commitStartTime : List (String × Int)
deriving Repr, DecidableEq

/-- Empty correlator state. -/
def emptyGitState : GitState := { currentCommit := [], commitStartTime := [] }

/-- `Map.get`. -/
def mapGet {α : Type} (m : List (String × α)) (k : String) : Option α :=
  (m.find? (fun p => p.1 == k)).map (fun p => p.2)

/-- `Map.set`: bind `k` to `v`, replacing any previous binding. -/
def mapSet {α : Type} (m : List (String × α)) (k : String) (v : α) :
    List (String × α) :=
  (k, v) :: m.filter (fun p => !(p.1 == k))

/-- `branch: branch || undefined` (gitTracker.ts line 138): the empty
string is falsy in JavaScript, so an empty branch name becomes absent. -/
def jsOrUndefined (b : Option String) : Option String :=
  match b with
  | some s => if s = "" then none else some s
  | none => none

/-- `GitTracker.getActiveCommit` (gitTracker.ts lines 153-155): pure read
of the per-project revision state. -/
def getActiveCommit (st : GitState) (projectPath : String) : Option String :=
  mapGet st.currentCommit projectPath

/-- The `GitCommit` built from fetched details (gitTracker.ts lines
128-139 and 171-182). -/
def builtCommit (projectPath newCommit : String) (d : CommitDetails)
    (branch : Option String) : GitCommit :=
  { projectPath := projectPath
    commitHash := newCommit
    message := d.message
    author := d.author
    authorEmail := d.authorEmail
    timestamp := d.timestamp
    filesChanged := d.filesChanged
    linesAdded := d.linesAdded
    linesDeleted := d.linesDeleted
    branch := jsOrUndefined branch
    id := none }

/-- `GitTracker.trackCommitChange` (gitTracker.ts lines 110-148) as a pure
transition on `(GitState, DbState)`.  `nowMs` is `Date.now()` at the call. -/
def trackCommitChange (cli : GitCli) (nowMs : Int) (st : GitState) (db : DbState)
    (projectPath : String) : GitState × DbState :=
  match getCurrentCommit cli projectPath with
  | none => (st, db)
  | some newCommit =>
    let oldCommit := mapGet st.currentCommit projectPath
    if oldCommit = some newCommit then (st, db)
    else
      let commitDetails := getCommitDetails cli projectPath newCommit
      let branch := getCurrentBranch cli projectPath
      let db1 :=
        match commitDetails with
        | some d => db.insertCommit (builtCommit projectPath newCommit d branch)
        | none => db
      ({ currentCommit := mapSet st.currentCommit projectPath newCommit
         commitStartTime := mapSet st.commitStartTime newCommit nowMs }, db1)

/-- `GitTracker.initializeProject` (gitTracker.ts lines 160-187): seed the
per-project state unconditionally on first sight, then store the initial
commit when its details can be fetched. -/
def initializeProject (cli : GitCli) (nowMs : Int) (st : GitState) (db : DbState)
    (projectPath : String) : GitState × DbState :=
  match getCurrentCommit cli projectPath with
  | none => (st, db)
  | some commit =>
    let st1 : GitState :=
      { currentCommit := mapSet st.currentCommit projectPath commit
        commitStartTime := mapSet st.commitStartTime commit nowMs }
    let commitDetails := getCommitDetails cli projectPath commit
    let branch := getCurrentBranch cli projectPath
    let db1 :=
      match commitDetails with
      | some d => db.insertCommit (builtCommit projectPath commit d branch)
      | none => db
    (st1, db1)

/-! ## Concrete instances used by scenario theorems -/

/-- Ids assigned consecutively from `n` to a list of records, as the store
does across successive inserts. -/
def withIds : Nat → List ActivityLog → List ActivityLog
  | _, [] => []
  | n, l :: ls => { l with id := some n } :: withIds (n + 1) ls

/-- A stored activity record with assigned id `i`. -/
def storedLog (i : Nat) : ActivityLog :=
  { projectPath := "/p", filePath := "/p/a.ts", language := "typescript",
    timestamp := 0, duration := 0, editor := "vscode", commitHash := none,
    id := some i }

/-- A stored revision record with assigned id 0. -/
def sampleCommit : GitCommit :=
  { projectPath := "/p", commitHash := "a1", message := "m", author := "A",
    authorEmail := "a@x", timestamp := 0, filesChanged := 1, linesAdded := 0,
    linesDeleted := 0, branch := none, id := some 0 }

/-- A store holding three unsynced activity records and one unsynced
revision record. -/
def sampleDb : DbState :=
  { logs := [storedLog 0, storedLog 1, storedLog 2], commits := [sampleCommit],
    nextLogId := 3, nextCommitId := 1 }

/-- A remote collector whose `submitActivities` resolves with `false`. -/
def declineActivities : List ActivityLog → Except String Bool :=
  fun _ => Except.ok false

/-- A remote collector whose `submitCommits` resolves with `false`. -/
def declineCommits : List GitCommit → Except String Bool :=
  fun _ => Except.ok false

/-- An inspector whose HEAD query answers `b2` but whose first detail
sub-query (the subject line) fails. -/
def failingDetailsCli : GitCli :=
  { revParseHead := fun _ => Except.ok "b2\n"
    branchShowCurrent := fun _ => Except.ok "main\n"
    logSubject := fun _ _ => Except.error "fatal: bad object"
    logAuthorName := fun _ _ => Except.ok "A\n"
    logAuthorEmail := fun _ _ => Except.ok "a@x\n"
    logAuthorTimestamp := fun _ _ => Except.ok "1700000000\n"
    showStat := fun _ _ => Except.ok "" }

/-- An inspector for which every query succeeds. -/
def okCli : GitCli :=
  { revParseHead := fun _ => Except.ok "b2\n"
    branchShowCurrent := fun _ => Except.ok "main\n"
    logSubject := fun _ _ => Except.ok "msg\n"
    logAuthorName := fun _ _ => Except.ok "A\n"
    logAuthorEmail := fun _ _ => Except.ok "a@x\n"
    logAuthorTimestamp := fun _ _ => Except.ok "1700000000\n"
    showStat := fun _ _ =>
      Except.ok " 1 file changed, 2 insertions(+), 1 deletion(-)\n" }

/-- An inspector for a path that is not a git repository: every query
fails. -/
def noRepoCli : GitCli :=
  { revParseHead := fun _ => Except.error "fatal: not a git repository"
    branchShowCurrent := fun _ => Except.error "fatal: not a git repository"
    logSubject := fun _ _ => Except.error "fatal: not a git repository"
    logAuthorName := fun _ _ => Except.error "fatal: not a git repository"
    logAuthorEmail := fun _ _ => Except.error "fatal: not a git repository"
    logAuthorTimestamp := fun _ _ => Except.error "fatal: not a git repository"
    showStat := fun _ _ => Except.error "fatal: not a git repository" }

/-- Correlator state in which project `/p` is known to be at revision
`a1`. -/
def preState : GitState :=
  { currentCommit := [("/p", "a1")], commitStartTime := [] }

/-! ## Basic facts about the debounce engine -/

/-- Unfolding: a discarded event leaves the state untouched. -/
theorem handleActivity_discard (st : TrackerState) (ev : RawEvent)
    (h : ev.now - st.lastActivityTime < debounceInterval) :
    handleActivity st ev = (st, none) := by
  unfold handleActivity
  simp [h]

/-- Unfolding: an accepted event advances `lastActivityTime` to `now`. -/
theorem handleActivity_accept_last (st : TrackerState) (ev : RawEvent)
    (h : debounceInterval ≤ ev.now - st.lastActivityTime) :
    (handleActivity st ev).1.lastActivityTime = ev.now := by
  unfold handleActivity
  rw [if_neg (not_lt.mpr h)]
  cases ev.activeEditor <;> simp

/-- Unfolding: an accepted event with an active editor appends the emitted
record to the queue. -/
theorem handleActivity_accept (st : TrackerState) (ev : RawEvent) (ed : EditorInfo)
    (hgap : debounceInterval ≤ ev.now - st.lastActivityTime)
    (hed : ev.activeEditor = some ed) :
    handleActivity st ev =
      ({ lastActivityTime := ev.now, queue := st.queue ++ [emittedLog st ev ed] },
       some (emittedLog st ev ed)) := by
  unfold handleActivity emittedLog
  rw [hed, if_neg (not_lt.mpr hgap)]

/-- Unfolding: an accepted event with no active editor still advances
`lastActivityTime` but emits nothing and leaves the queue alone. -/
theorem handleActivity_accept_noeditor (st : TrackerState) (ev : RawEvent)
    (hgap : debounceInterval ≤ ev.now - st.lastActivityTime)
    (hed : ev.activeEditor = none) :
    handleActivity st ev = ({ st with lastActivityTime := ev.now }, none) := by
  unfold handleActivity
  rw [hed, if_neg (not_lt.mpr hgap)]

/-- `lastActivityTime` never decreases across `handleActivity`. -/
theorem handleActivity_last_mono (st : TrackerState) (ev : RawEvent) :
    st.lastActivityTime ≤ (handleActivity st ev).1.lastActivityTime := by
  unfold handleActivity
  by_cases h : ev.now - st.lastActivityTime < debounceInterval
  · simp [h]
  · rw [if_neg h]
    have hd : debounceInterval = 2000 := rfl
    have h2 : st.lastActivityTime + 2000 ≤ ev.now := by
      have := not_lt.mp h
      omega
    cases ev.activeEditor <;> simp <;> omega

/-- The duration of every emitted record follows the idle policy: `0` on the
first-ever event or after an idle gap, the gap otherwise. -/
theorem handleActivity_duration (st : TrackerState) (ev : RawEvent) (log : ActivityLog)
    (h : (handleActivity st ev).2 = some log) :
    log.duration =
      (if st.lastActivityTime = 0 ∨ maxIdleTime ≤ ev.now - st.lastActivityTime
       then 0 else ev.now - st.lastActivityTime) ∧
    log.timestamp = ev.now := by
  by_cases hgap : ev.now - st.lastActivityTime < debounceInterval
  · rw [handleActivity_discard st ev hgap] at h
    simp at h
  · have hgap' := not_lt.mp hgap
    cases hed : ev.activeEditor with
    | none =>
      rw [handleActivity_accept_noeditor st ev hgap' hed] at h
      simp at h
    | some ed =>
      rw [handleActivity_accept st ev ed hgap' hed] at h
      have hlog : log = emittedLog st ev ed := by
        simpa using h.symm
      subst hlog
      refine ⟨?_, rfl⟩
      show (if st.lastActivityTime ≠ 0 ∧ ev.now - st.lastActivityTime < maxIdleTime
            then ev.now - st.lastActivityTime else 0) = _
      by_cases hc : st.lastActivityTime = 0 ∨ maxIdleTime ≤ ev.now - st.lastActivityTime
      · rw [if_pos hc, if_neg (by omega)]
      · rw [if_neg hc, if_pos (by omega)]

/-- Emission implies the event passed the debounce gate. -/
theorem handleActivity_emit_gap (st : TrackerState) (ev : RawEvent) (log : ActivityLog)
    (h : (handleActivity st ev).2 = some log) :
    debounceInterval ≤ ev.now - st.lastActivityTime := by
  by_contra hgap
  rw [handleActivity_discard st ev (not_le.mp hgap)] at h
  simp at h

/-- Every record emitted from state `st` carries a timestamp at least
`debounceInterval` past `st.lastActivityTime`. -/
theorem runEvents_emits_ge (evs : List RawEvent) :
    ∀ (st : TrackerState), ∀ log ∈ (runEvents st evs).2,
      st.lastActivityTime + debounceInterval ≤ log.timestamp := by
  induction evs with
  | nil => intro st log h; simp [runEvents] at h
  | cons ev rest ih =>
    intro st log hmem
    have hd : debounceInterval = 2000 := rfl
    by_cases hgap : ev.now - st.lastActivityTime < debounceInterval
    · simp only [runEvents, handleActivity_discard st ev hgap, Option.toList_none,
        List.nil_append] at hmem
      exact ih st log hmem
    · have hgap' := not_lt.mp hgap
      cases hed : ev.activeEditor with
      | none =>
        simp only [runEvents, handleActivity_accept_noeditor st ev hgap' hed,
          Option.toList_none, List.nil_append] at hmem
        have := ih _ log hmem
        simp only at this
        omega
      | some ed =>
        simp only [runEvents, handleActivity_accept st ev ed hgap' hed,
          Option.toList_some, List.cons_append, List.nil_append,
          List.mem_cons] at hmem
        rcases hmem with h | h
        · subst h
          simp only [emittedLog]
          omega
        · have := ih _ log h
          simp only at this
          omega

/-- Records emitted over any event sequence are pairwise separated by at
least `debounceInterval`. -/
theorem runEvents_pairwise (evs : List RawEvent) :
    ∀ (st : TrackerState),
      ((runEvents st evs).2).Pairwise
        (fun a b => a.timestamp + debounceInterval ≤ b.timestamp) := by
  induction evs with
  | nil => intro st; simp [runEvents]
  | cons ev rest ih =>
    intro st
    have hd : debounceInterval = 2000 := rfl
    by_cases hgap : ev.now - st.lastActivityTime < debounceInterval
    · simp only [runEvents, handleActivity_discard st ev hgap, Option.toList_none,
        List.nil_append]
      exact ih st
    · have hgap' := not_lt.mp hgap
      cases hed : ev.activeEditor with
      | none =>
        simp only [runEvents, handleActivity_accept_noeditor st ev hgap' hed,
          Option.toList_none, List.nil_append]
        exact ih _
      | some ed =>
        simp only [runEvents, handleActivity_accept st ev ed hgap' hed,
          Option.toList_some, List.cons_append, List.nil_append]
        refine List.Pairwise.cons ?_ (ih _)
        intro b hb
        have := runEvents_emits_ge rest _ b hb
        simp only at this
        simp only [emittedLog]
        omega

/-! ## Claim C1 -/

/-- C1 counterexample: taken literally, the event sequence at t=0, t=1000,
t=2500 from the initial state yields exactly one record, `{t:2500,
duration:0}` — not the two records the claim states.  The code's debounce
check `timeDiff < debounceInterval` has no `lastActivityTime ≠ 0` conjunct,
so the first-ever event is itself discarded whenever `now <
debounceInterval`. -/
theorem C1_scenario_counterexample :
    (runEvents initTracker [evAt 0, evAt 1000, evAt 2500]).2.map
        (fun l => (l.timestamp, l.duration)) = [(2500, 0)] := by
  decide

/-- C1 (amended): the debounce gate discards a raw event exactly when
`now - lastActivityTime < debounceInterval`, with no separate check of
`lastActivityTime ≠ 0`; since real `Date.now()` values exceed
`debounceInterval`, a first-ever event at clock value `base ≥
debounceInterval` is never discarded, and the event sequence at `base`,
`base+1000`, `base+2500` yields exactly two records,
`{t:base, duration:0}` and `{t:base+2500, duration:2500}`. -/
theorem C1_debounce_gate_amended (base : Int) (hbase : debounceInterval ≤ base) :
    (∀ st ev, ev.now - st.lastActivityTime < debounceInterval →
        handleActivity st ev = (st, none)) ∧
    (runEvents initTracker [evAt base, evAt (base + 1000), evAt (base + 2500)]).2.map
        (fun l => (l.timestamp, l.duration)) = [(base, 0), (base + 2500, 2500)] := by
  refine ⟨handleActivity_discard, ?_⟩
  have hd : debounceInterval = 2000 := rfl
  have c1 : ¬ (base < (2000 : Int)) := by omega
  have c4 : ¬ (base = (0 : Int)) := by omega
  simp [runEvents, handleActivity, evAt, initTracker, debounceInterval,
    maxIdleTime, c1, c4]

/-- C1 witness: the amended statement at `base = 2000`. -/
theorem C1_debounce_gate_amended_witness :
    (∀ st ev, ev.now - st.lastActivityTime < debounceInterval →
        handleActivity st ev = (st, none)) ∧
    (runEvents initTracker [evAt 2000, evAt (2000 + 1000), evAt (2000 + 2500)]).2.map
        (fun l => (l.timestamp, l.duration)) = [(2000, 0), (2000 + 2500, 2500)] :=
  C1_debounce_gate_amended 2000 (by decide)

/-! ## Claim C2 -/

/-- C2: every record emitted by `handleActivity` has `duration = 0` when it
is the first-ever event (`lastActivityTime = 0`) or the gap reached
`maxIdleTime`, and `duration = gap` otherwise; `duration` is never
negative. -/
theorem C2_duration_policy (st : TrackerState) (ev : RawEvent) (log : ActivityLog)
    (h : (handleActivity st ev).2 = some log) :
    log.duration =
      (if st.lastActivityTime = 0 ∨ maxIdleTime ≤ ev.now - st.lastActivityTime
       then 0 else ev.now - st.lastActivityTime) ∧
    0 ≤ log.duration := by
  obtain ⟨hdur, -⟩ := handleActivity_duration st ev log h
  have hgap := handleActivity_emit_gap st ev log h
  have hd : debounceInterval = 2000 := rfl
  refine ⟨hdur, ?_⟩
  rw [hdur]
  by_cases hc : st.lastActivityTime = 0 ∨ maxIdleTime ≤ ev.now - st.lastActivityTime
  · rw [if_pos hc]
  · rw [if_neg hc]
    omega

/-- C2 witness: the first-ever event at t=3000 emits a record with
duration 0. -/
theorem C2_duration_policy_witness :
    (emittedLog initTracker (evAt 3000)
        { fileName := "/p/a.ts", languageId := "typescript",
          workspaceFolder := some "/p" }).duration =
      (if initTracker.lastActivityTime = 0 ∨
          maxIdleTime ≤ (evAt 3000).now - initTracker.lastActivityTime
       then 0 else (evAt 3000).now - initTracker.lastActivityTime) ∧
    0 ≤ (emittedLog initTracker (evAt 3000)
        { fileName := "/p/a.ts", languageId := "typescript",
          workspaceFolder := some "/p" }).duration :=
  C2_duration_policy initTracker (evAt 3000) _ rfl

/-! ## Claim C6 -/

/-- C6: over every raw event sequence from the initial state, the emitted
records' generation timestamps are pairwise at least `debounceInterval`
apart. -/
theorem C6_debounce_separation (evs : List RawEvent) :
    ((runEvents initTracker evs).2).Pairwise
      (fun a b => a.timestamp + debounceInterval ≤ b.timestamp) :=
  runEvents_pairwise evs initTracker

/-! ## Claim C10 -/

/-- C10: an event that passes the debounce gate with no active editor emits
nothing and leaves the queue alone, yet advances `lastActivityTime` to
`now`; the next emitted record's duration is therefore measured from this
silently dropped event. -/
theorem C10_silent_drop_advances_clock (st : TrackerState) (ev ev2 : RawEvent)
    (log : ActivityLog)
    (hgap : debounceInterval ≤ ev.now - st.lastActivityTime)
    (hed : ev.activeEditor = none) :
    (handleActivity st ev).2 = none ∧
    (handleActivity st ev).1.lastActivityTime = ev.now ∧
    (handleActivity st ev).1.queue = st.queue ∧
    ((handleActivity (handleActivity st ev).1 ev2).2 = some log →
      log.duration =
        if ev.now = 0 ∨ maxIdleTime ≤ ev2.now - ev.now then 0
        else ev2.now - ev.now) := by
  have hrw := handleActivity_accept_noeditor st ev hgap hed
  rw [hrw]
  refine ⟨rfl, rfl, rfl, ?_⟩
  intro h
  have := (handleActivity_duration _ ev2 log h).1
  simpa using this

/-- C10 witness: an editor-less event at t=3000 followed by an emitting
event at t=6000, whose duration 3000 is measured from the dropped event. -/
theorem C10_silent_drop_advances_clock_witness :
    (handleActivity initTracker
        { now := 3000, activeEditor := none, activeCommit := none }).2 = none ∧
    (handleActivity initTracker
        { now := 3000, activeEditor := none, activeCommit := none
          }).1.lastActivityTime =
      ({ now := 3000, activeEditor := none, activeCommit := none } : RawEvent).now ∧
    (handleActivity initTracker
        { now := 3000, activeEditor := none, activeCommit := none }).1.queue =
      initTracker.queue ∧
    ((handleActivity
        (handleActivity initTracker
          { now := 3000, activeEditor := none, activeCommit := none }).1
        (evAt 6000)).2 =
      some (emittedLog { lastActivityTime := 3000, queue := [] } (evAt 6000)
        { fileName := "/p/a.ts", languageId := "typescript",
          workspaceFolder := some "/p" }) →
      (emittedLog { lastActivityTime := 3000, queue := [] } (evAt 6000)
        { fileName := "/p/a.ts", languageId := "typescript",
          workspaceFolder := some "/p" }).duration =
        if ({ now := 3000, activeEditor := none,
              activeCommit := none } : RawEvent).now = 0 ∨
           maxIdleTime ≤ (evAt 6000).now -
             ({ now := 3000, activeEditor := none,
                activeCommit := none } : RawEvent).now
        then 0
        else (evAt 6000).now -
          ({ now := 3000, activeEditor := none,
             activeCommit := none } : RawEvent).now) :=
  C10_silent_drop_advances_clock initTracker
    { now := 3000, activeEditor := none, activeCommit := none } (evAt 6000) _
    (by decide) rfl

/-! ## Facts about the store and the sync engine -/

/-- The flush fold inserts exactly the records whose insertion succeeds, in
order, with consecutively assigned ids; revision records are untouched. -/
theorem flush_foldl_logs (insertOk : ActivityLog → Bool) (q : List ActivityLog) :
    ∀ db : DbState,
      ((q.foldl (fun d l => if insertOk l then d.insertActivity l else d) db).logs =
        db.logs ++ withIds db.nextLogId (q.filter insertOk)) ∧
      ((q.foldl (fun d l => if insertOk l then d.insertActivity l else d) db).commits =
        db.commits) := by
  induction q with
  | nil => intro db; simp [withIds]
  | cons l q ih =>
    intro db
    cases hl : insertOk l with
    | true =>
      rw [List.foldl_cons, if_pos hl]
      obtain ⟨h1, h2⟩ := ih (db.insertActivity l)
      refine ⟨?_, ?_⟩
      · rw [h1]
        simp [DbState.insertActivity, List.filter_cons, hl, withIds]
      · rw [h2]
        rfl
    | false =>
      rw [List.foldl_cons, if_neg (by simp [hl])]
      obtain ⟨h1, h2⟩ := ih db
      refine ⟨?_, h2⟩
      rw [h1]
      simp [List.filter_cons, hl]

/-- A record whose assigned id is in the deleted id list is no longer in
the store. -/
theorem not_mem_deleteLogs (db : DbState) (ids : List Nat) (l : ActivityLog)
    (i : Nat) (hid : l.id = some i) (hin : i ∈ ids) :
    l ∉ (db.deleteLogs ids).logs := by
  intro hmem
  have hmem2 : l ∈ db.logs.filter (fun l =>
      match l.id with
      | some i => !(ids.contains i)
      | none => true) := hmem
  rw [List.mem_filter] at hmem2
  obtain ⟨-, hp⟩ := hmem2
  simp [hid] at hp
  exact hp hin

/-- A revision record whose assigned id is in the deleted id list is no
longer in the store. -/
theorem not_mem_deleteCommits (db : DbState) (ids : List Nat) (c : GitCommit)
    (i : Nat) (hid : c.id = some i) (hin : i ∈ ids) :
    c ∉ (db.deleteCommits ids).commits := by
  intro hmem
  have hmem2 : c ∈ db.commits.filter (fun c =>
      match c.id with
      | some i => !(ids.contains i)
      | none => true) := hmem
  rw [List.mem_filter] at hmem2
  obtain ⟨-, hp⟩ := hmem2
  simp [hid] at hp
  exact hp hin

/-- A completed activities step never touches the revision records. -/
theorem syncActivitiesStep_ok_commits (db : DbState)
    (sa : List ActivityLog → Except String Bool) (db1 : DbState)
    (h : syncActivitiesStep db sa = Except.ok db1) :
    db1.commits = db.commits := by
  unfold syncActivitiesStep at h
  by_cases h0 : (db.getUnsyncedLogs 50).length > 0
  · rw [if_pos h0] at h
    cases hsa : sa (db.getUnsyncedLogs 50) with
    | ok b =>
      rw [hsa] at h
      cases b
      · simp at h
        rw [← h]
      · simp at h
        rw [← h]
        rfl
    | error e =>
      rw [hsa] at h
      simp at h
  · rw [if_neg h0] at h
    simp at h
    rw [← h]

/-- A completed revisions step never touches the activity records. -/
theorem syncCommitsStep_ok_logs (db : DbState)
    (sc : List GitCommit → Except String Bool) (db2 : DbState)
    (h : syncCommitsStep db sc = Except.ok db2) :
    db2.logs = db.logs := by
  unfold syncCommitsStep at h
  by_cases h0 : (db.getUnsyncedCommits 20).length > 0
  · rw [if_pos h0] at h
    cases hsc : sc (db.getUnsyncedCommits 20) with
    | ok b =>
      rw [hsc] at h
      cases b
      · simp at h
        rw [← h]
      · simp at h
        rw [← h]
        rfl
    | error e =>
      rw [hsc] at h
      simp at h
  · rw [if_neg h0] at h
    simp at h
    rw [← h]

/-! ## Claim C7 -/

/-- C7: the flush step empties the pending batch and inserts into the store
exactly the swapped-out records whose insertion succeeds (in order, with
store-assigned ids); a record whose insertion throws is dropped — it is in
neither the new batch nor the store — while the remaining records are still
inserted and the revision records are untouched. -/
theorem C7_flush_drops_failures (st : TrackerState) (db : DbState)
    (insertOk : ActivityLog → Bool) :
    (flushStep st db insertOk).1.queue = [] ∧
    (flushStep st db insertOk).2.logs =
      db.logs ++ withIds db.nextLogId (st.queue.filter insertOk) ∧
    (flushStep st db insertOk).2.commits = db.commits := by
  unfold flushStep
  by_cases h0 : st.queue.length > 0
  · rw [if_pos h0]
    obtain ⟨h1, h2⟩ := flush_foldl_logs insertOk st.queue db
    exact ⟨rfl, h1, h2⟩
  · rw [if_neg h0]
    have hq : st.queue = [] := List.length_eq_zero.mp (by omega)
    rw [hq]
    simp [withIds]

/-- Characterization: a rejected activities submit leaves the whole store
untouched. -/
theorem syncDbToApi_error (db : DbState) (sa : List ActivityLog → Except String Bool)
    (sc : List GitCommit → Except String Bool) (e : String)
    (hA : syncActivitiesStep db sa = Except.error e) :
    syncDbToApi db sa sc = db := by
  unfold syncDbToApi
  rw [hA]

/-- Characterization: activities step completed, revisions submit rejected. -/
theorem syncDbToApi_ok_error (db db1 : DbState)
    (sa : List ActivityLog → Except String Bool)
    (sc : List GitCommit → Except String Bool) (e : String)
    (hA : syncActivitiesStep db sa = Except.ok db1)
    (hC : syncCommitsStep db1 sc = Except.error e) :
    syncDbToApi db sa sc = db1 := by
  unfold syncDbToApi
  rw [hA]
  show (match syncCommitsStep db1 sc with
        | Except.error _ => db1
        | Except.ok db2 => db2) = db1
  rw [hC]

/-- Characterization: both steps completed. -/
theorem syncDbToApi_ok_ok (db db1 db2 : DbState)
    (sa : List ActivityLog → Except String Bool)
    (sc : List GitCommit → Except String Bool)
    (hA : syncActivitiesStep db sa = Except.ok db1)
    (hC : syncCommitsStep db1 sc = Except.ok db2) :
    syncDbToApi db sa sc = db2 := by
  unfold syncDbToApi
  rw [hA]
  show (match syncCommitsStep db1 sc with
        | Except.error _ => db1
        | Except.ok d => d) = db2
  rw [hC]

/-- The result of the whole API section has the same activity records as the
result of the activities step alone. -/
theorem syncDbToApi_logs (db db1 : DbState)
    (sa : List ActivityLog → Except String Bool)
    (sc : List GitCommit → Except String Bool)
    (hA : syncActivitiesStep db sa = Except.ok db1) :
    (syncDbToApi db sa sc).logs = db1.logs := by
  cases hC : syncCommitsStep db1 sc with
  | ok db2 =>
    rw [syncDbToApi_ok_ok db db1 db2 sa sc hA hC]
    exact syncCommitsStep_ok_logs db1 sc db2 hC
  | error e =>
    rw [syncDbToApi_ok_error db db1 sa sc e hA hC]

/-! ## Claim C3 -/

/-- C3: in one sync iteration, the batch of unsynced activity records read
from the store is deleted exactly when `submitActivities` resolves with
`true`; on `false` or a rejection the activity records are unchanged.  A
rejection of the activities submit aborts the iteration with the whole
store unchanged; otherwise the batch of unsynced revision records is
deleted exactly when `submitCommits` resolves with `true`, and is unchanged
on `false` or rejection. -/
theorem C3_delete_iff_ack (db : DbState)
    (sa : List ActivityLog → Except String Bool)
    (sc : List GitCommit → Except String Bool)
    (hl : ∀ l ∈ db.logs, l.id.isSome = true)
    (hc : ∀ c ∈ db.commits, c.id.isSome = true) :
    ((sa (db.getUnsyncedLogs 50) = Except.ok true →
        ∀ l ∈ db.getUnsyncedLogs 50, l ∉ (syncDbToApi db sa sc).logs) ∧
     (sa (db.getUnsyncedLogs 50) ≠ Except.ok true →
        (syncDbToApi db sa sc).logs = db.logs)) ∧
    ((∀ e, syncActivitiesStep db sa = Except.error e →
        syncDbToApi db sa sc = db) ∧
     (∀ db1, syncActivitiesStep db sa = Except.ok db1 →
        ((sc (db.getUnsyncedCommits 20) = Except.ok true →
            ∀ c ∈ db.getUnsyncedCommits 20, c ∉ (syncDbToApi db sa sc).commits) ∧
         (sc (db.getUnsyncedCommits 20) ≠ Except.ok true →
            (syncDbToApi db sa sc).commits = db.commits)))) := by
  constructor
  · constructor
    · intro hsa l hmem hmem2
      by_cases h0 : (db.getUnsyncedLogs 50).length > 0
      · have hA : syncActivitiesStep db sa =
            Except.ok (db.deleteLogs (logIds (db.getUnsyncedLogs 50))) := by
          unfold syncActivitiesStep
          rw [if_pos h0, hsa]
        rw [syncDbToApi_logs db _ sa sc hA] at hmem2
        obtain ⟨i, hid⟩ :=
          Option.isSome_iff_exists.mp (hl l (List.take_subset _ _ hmem))
        have hin : i ∈ logIds (db.getUnsyncedLogs 50) := by
          unfold logIds
          exact List.mem_filterMap.mpr ⟨l, hmem, hid⟩
        exact not_mem_deleteLogs db _ l i hid hin hmem2
      · have hq : db.getUnsyncedLogs 50 = [] := List.length_eq_zero.mp (by omega)
        rw [hq] at hmem
        simp at hmem
    · intro hsa
      by_cases h0 : (db.getUnsyncedLogs 50).length > 0
      · cases hsab : sa (db.getUnsyncedLogs 50) with
        | ok b =>
          cases b with
          | false =>
            have hA : syncActivitiesStep db sa = Except.ok db := by
              unfold syncActivitiesStep
              rw [if_pos h0, hsab]
            exact syncDbToApi_logs db db sa sc hA
          | true => exact absurd hsab hsa
        | error e =>
          have hA : syncActivitiesStep db sa = Except.error e := by
            unfold syncActivitiesStep
            rw [if_pos h0, hsab]
          rw [syncDbToApi_error db sa sc e hA]
      · have hA : syncActivitiesStep db sa = Except.ok db := by
          unfold syncActivitiesStep
          rw [if_neg h0]
        exact syncDbToApi_logs db db sa sc hA
  · constructor
    · intro e hA
      exact syncDbToApi_error db sa sc e hA
    · intro db1 hA
      have hcomm : db1.commits = db.commits :=
        syncActivitiesStep_ok_commits db sa db1 hA
      have hbatch : db1.getUnsyncedCommits 20 = db.getUnsyncedCommits 20 := by
        unfold DbState.getUnsyncedCommits
        rw [hcomm]
      constructor
      · intro hsc c hmem hmem2
        by_cases h0 : (db.getUnsyncedCommits 20).length > 0
        · have hC : syncCommitsStep db1 sc =
              Except.ok (db1.deleteCommits (commitIds (db.getUnsyncedCommits 20))) := by
            unfold syncCommitsStep
            rw [hbatch, if_pos h0, hsc]
          rw [syncDbToApi_ok_ok db db1 _ sa sc hA hC] at hmem2
          obtain ⟨i, hid⟩ :=
            Option.isSome_iff_exists.mp (hc c (List.take_subset _ _ hmem))
          have hin : i ∈ commitIds (db.getUnsyncedCommits 20) := by
            unfold commitIds
            exact List.mem_filterMap.mpr ⟨c, hmem, hid⟩
          exact not_mem_deleteCommits db1 _ c i hid hin hmem2
        · have hq : db.getUnsyncedCommits 20 = [] := List.length_eq_zero.mp (by omega)
          rw [hq] at hmem
          simp at hmem
      · intro hsc
        by_cases h0 : (db.getUnsyncedCommits 20).length > 0
        · cases hscb : sc (db.getUnsyncedCommits 20) with
          | ok b =>
            cases b with
            | false =>
              have hC : syncCommitsStep db1 sc = Except.ok db1 := by
                unfold syncCommitsStep
                rw [hbatch, if_pos h0, hscb]
              rw [syncDbToApi_ok_ok db db1 db1 sa sc hA hC, hcomm]
            | true => exact absurd hscb hsc
          | error e =>
            have hC : syncCommitsStep db1 sc = Except.error e := by
              unfold syncCommitsStep
              rw [hbatch, if_pos h0, hscb]
            rw [syncDbToApi_ok_error db db1 sa sc e hA hC, hcomm]
        · have hC : syncCommitsStep db1 sc = Except.ok db1 := by
            unfold syncCommitsStep
            rw [hbatch, if_neg h0]
          rw [syncDbToApi_ok_ok db db1 db1 sa sc hA hC, hcomm]

/-- C3 witness: the spec scenario — three unsynced records, the submit
resolves `false`, the store still contains all three after the iteration. -/
theorem C3_delete_iff_ack_witness :
    ((declineActivities (sampleDb.getUnsyncedLogs 50) = Except.ok true →
        ∀ l ∈ sampleDb.getUnsyncedLogs 50,
          l ∉ (syncDbToApi sampleDb declineActivities declineCommits).logs) ∧
     (declineActivities (sampleDb.getUnsyncedLogs 50) ≠ Except.ok true →
        (syncDbToApi sampleDb declineActivities declineCommits).logs =
          sampleDb.logs)) ∧
    ((∀ e, syncActivitiesStep sampleDb declineActivities = Except.error e →
        syncDbToApi sampleDb declineActivities declineCommits = sampleDb) ∧
     (∀ db1, syncActivitiesStep sampleDb declineActivities = Except.ok db1 →
        ((declineCommits (sampleDb.getUnsyncedCommits 20) = Except.ok true →
            ∀ c ∈ sampleDb.getUnsyncedCommits 20,
              c ∉ (syncDbToApi sampleDb declineActivities declineCommits).commits) ∧
         (declineCommits (sampleDb.getUnsyncedCommits 20) ≠ Except.ok true →
            (syncDbToApi sampleDb declineActivities declineCommits).commits =
              sampleDb.commits)))) :=
  C3_delete_iff_ack sampleDb declineActivities declineCommits
    (by decide) (by decide)

/-! ## Claim C9 -/

/-- C9 counterexample: an iteration already past its entry guard (tracking
on, its timer consumed) during which `stopTracking` runs completes with
tracking disabled but a fresh timer scheduled — line 189 of tracker.ts
reschedules unconditionally, so the in-flight iteration does schedule
another iteration, contrary to the claim. -/
theorem C9_reschedule_counterexample :
    syncLoopRun { isTracking := true, timerScheduled := false } true =
      { isTracking := false, timerScheduled := true } := by
  decide

/-- C9 (amended): `stopTracking` cancels the outstanding timer, and from
any tracking state an iteration stopped mid-flight completes without
crashing but schedules one more iteration; that extra iteration exits at
the entry guard and schedules nothing further, so at most one further
(no-op) iteration fires after `stopTracking`. -/
theorem C9_stop_amended (s : SyncState) (h : s.isTracking = true) :
    (stopTracking s).timerScheduled = false ∧
    (stopTracking s).isTracking = false ∧
    syncLoopRun s true = { isTracking := false, timerScheduled := true } ∧
    syncLoopRun (syncLoopRun s true) false =
      { isTracking := false, timerScheduled := false } := by
  have h1 : stopTracking s = { isTracking := false, timerScheduled := false } := by
    unfold stopTracking
    simp [h]
  have h2 : stopTracking { isTracking := true, timerScheduled := false } =
      { isTracking := false, timerScheduled := false } := by
    decide
  have h3 : syncLoopRun s true = { isTracking := false, timerScheduled := true } := by
    unfold syncLoopRun
    simp [h, h2]
  refine ⟨by rw [h1], by rw [h1], h3, ?_⟩
  rw [h3]
  decide

/-- C9 witness: the amended statement at the tracking state with a timer
outstanding. -/
theorem C9_stop_amended_witness :
    (stopTracking { isTracking := true, timerScheduled := true }).timerScheduled =
      false ∧
    (stopTracking { isTracking := true, timerScheduled := true }).isTracking =
      false ∧
    syncLoopRun { isTracking := true, timerScheduled := true } true =
      { isTracking := false, timerScheduled := true } ∧
    syncLoopRun
        (syncLoopRun { isTracking := true, timerScheduled := true } true) false =
      { isTracking := false, timerScheduled := false } :=
  C9_stop_amended { isTracking := true, timerScheduled := true } rfl

/-! ## Facts about the revision correlator -/

/-- Reading a key just set returns the new value. -/
theorem mapGet_mapSet {α : Type} (m : List (String × α)) (k : String) (v : α) :
    mapGet (mapSet m k v) k = some v := by
  unfold mapGet mapSet
  simp

/-! ## Claim C4 -/

/-- C4 counterexample: project `/p` is at known revision `a1`; HEAD now
reads `b2` but the subject-line detail sub-query fails.  No RevisionRecord
is persisted (first half of the claim), yet `getActiveCommit` reports the
new hash `b2`, not the last known value `a1`: lines 145-146 of gitTracker.ts
update `currentCommit` outside the `if (commitDetails)` guard. -/
theorem C4_state_counterexample :
    (trackCommitChange failingDetailsCli 0 preState emptyDb "/p").2.commits = [] ∧
    getActiveCommit (trackCommitChange failingDetailsCli 0 preState emptyDb "/p").1
        "/p" = some "b2" ∧
    getActiveCommit (trackCommitChange failingDetailsCli 0 preState emptyDb "/p").1
        "/p" ≠ some "a1" :=
  ⟨by decide, by decide, by decide⟩

/-- C4 (amended): if the revision-detail fetch fails during a detection
cycle in which HEAD differs from the stored revision, no RevisionRecord is
persisted (the store is unchanged), but the per-project revision state is
nonetheless updated: `getActiveCommit` thereafter reports the newly
observed hash, not the previous value. -/
theorem C4_detail_failure_amended (cli : GitCli) (now : Int) (st : GitState)
    (db : DbState) (p newHash : String)
    (hHead : getCurrentCommit cli p = some newHash)
    (hNew : mapGet st.currentCommit p ≠ some newHash)
    (hDetails : getCommitDetails cli p newHash = none) :
    (trackCommitChange cli now st db p).2 = db ∧
    getActiveCommit (trackCommitChange cli now st db p).1 p = some newHash := by
  have h1 : trackCommitChange cli now st db p =
      ({ currentCommit := mapSet st.currentCommit p newHash
         commitStartTime := mapSet st.commitStartTime newHash now }, db) := by
    unfold trackCommitChange
    rw [hHead]
    simp only [hDetails, hNew, ite_false]
  rw [h1]
  exact ⟨rfl, mapGet_mapSet st.currentCommit p newHash⟩

/-- C4 witness: the amended statement at the counterexample instance. -/
theorem C4_detail_failure_amended_witness :
    (trackCommitChange failingDetailsCli 0 preState emptyDb "/p").2 = emptyDb ∧
    getActiveCommit (trackCommitChange failingDetailsCli 0 preState emptyDb "/p").1
        "/p" = some "b2" :=
  C4_detail_failure_amended failingDetailsCli 0 preState emptyDb "/p" "b2"
    (by decide) (by decide) (by decide)

/-! ## Claim C5 -/

/-- C5: when a changed HEAD is detected and its details fetch succeeds, the
detection stores exactly one RevisionRecord for that hash, and an
immediately repeated detection with the same HEAD is a no-op on both the
store and the per-project revision state. -/
theorem C5_idempotent_detection (cli : GitCli) (st : GitState) (db : DbState)
    (p hash : String) (now1 now2 : Int) (d : CommitDetails)
    (hHead : getCurrentCommit cli p = some hash)
    (hNew : mapGet st.currentCommit p ≠ some hash)
    (hd : getCommitDetails cli p hash = some d) :
    trackCommitChange cli now2 (trackCommitChange cli now1 st db p).1
        (trackCommitChange cli now1 st db p).2 p =
      trackCommitChange cli now1 st db p ∧
    ((trackCommitChange cli now1 st db p).2.commits.filter
        (fun c => c.commitHash == hash)).length =
      (db.commits.filter (fun c => c.commitHash == hash)).length + 1 := by
  have h1 : trackCommitChange cli now1 st db p =
      ({ currentCommit := mapSet st.currentCommit p hash
         commitStartTime := mapSet st.commitStartTime hash now1 },
       db.insertCommit (builtCommit p hash d (getCurrentBranch cli p))) := by
    unfold trackCommitChange
    rw [hHead]
    simp only [hd, hNew, ite_false]
  have h2 : mapGet (mapSet st.currentCommit p hash) p = some hash :=
    mapGet_mapSet st.currentCommit p hash
  constructor
  · rw [h1]
    unfold trackCommitChange
    rw [hHead]
    simp only [h2, ite_true]
  · rw [h1]
    simp [DbState.insertCommit, builtCommit]

/-- C5 witness: detecting `b2` for a fresh project with a fully working
inspector, twice. -/
theorem C5_idempotent_detection_witness :
    trackCommitChange okCli 9
        (trackCommitChange okCli 5 emptyGitState emptyDb "/p").1
        (trackCommitChange okCli 5 emptyGitState emptyDb "/p").2 "/p" =
      trackCommitChange okCli 5 emptyGitState emptyDb "/p" ∧
    ((trackCommitChange okCli 5 emptyGitState emptyDb "/p").2.commits.filter
        (fun c => c.commitHash == "b2")).length =
      (emptyDb.commits.filter (fun c => c.commitHash == "b2")).length + 1 :=
  C5_idempotent_detection okCli emptyGitState emptyDb "/p" "b2" 5 9
    { message := "msg", author := "A", authorEmail := "a@x",
      timestamp := 1700000000000, filesChanged := 1, linesAdded := 2,
      linesDeleted := 1 }
    (by decide) (by decide) (by decide)

/-! ## Claim C8 -/

/-- C8: when the inspector HEAD query fails for a project root, both
`trackCommitChange` and `initializeProject` return normally with the store
and the per-project revision state completely unchanged — the failure is
swallowed inside `getCurrentCommit` and the project is treated as having no
revision. -/
theorem C8_head_failure_swallowed (cli : GitCli) (st : GitState) (db : DbState)
    (p : String) (now : Int) (e : String)
    (h : cli.revParseHead p = Except.error e) :
    trackCommitChange cli now st db p = (st, db) ∧
    initializeProject cli now st db p = (st, db) := by
  have hh : getCurrentCommit cli p = none := by
    unfold getCurrentCommit
    rw [h]
  constructor
  · unfold trackCommitChange
    rw [hh]
  · unfold initializeProject
    rw [hh]

/-- C8 witness: a path that is not a git repository. -/
theorem C8_head_failure_swallowed_witness :
    trackCommitChange noRepoCli 0 emptyGitState emptyDb "/tmp/x" =
      (emptyGitState, emptyDb) ∧
    initializeProject noRepoCli 0 emptyGitState emptyDb "/tmp/x" =
      (emptyGitState, emptyDb) :=
  C8_head_failure_swallowed noRepoCli emptyGitState emptyDb "/tmp/x" 0
    "fatal: not a git repository" rfl
